import Mathlib

/-!
Verification of the outlier-scoring filters of `rmmtools`
(`rmmtools/util/filters.py`): the modified Z-score `mscore` and the
Sn-scale score `sn_score`, together with their grouped dispatch and the
`assert isinstance(x, pd.Series)` contract.

Modelling conventions.
* Float values are embedded as exact rationals (ℚ); a pandas Series of
  floats becomes a `List ℚ` indexed by position.
* A float cell that is NaN is embedded as `none : Option ℚ`; a Series
  that can hold NaN becomes a `List (Option ℚ)`.
* Float division `(a)/(b)` yields NaN or ±infinity exactly when `b = 0`
  (`a/0` is ±inf for `a ≠ 0` and NaN for `a = 0`); since `sn_score`
  collapses all three via `replace(inf, nan)`, `replace(-inf, nan)` and
  `fillna(0)`, the embedding `fdiv` maps the `b = 0` case to `none`.
* `rolling(window, center, min_periods=1)` over `n` positions produces,
  at position `i`, the window of indices `[start, end)` with
  `end = min (i+1+offset) n`, `start = min (i+1+offset-W) n`
  (natural subtraction truncates at 0) and `offset = (W-1)/2` when
  `center` else `0`; this is pandas' fixed-window indexer.  For `W ≥ 1`
  every window is nonempty, so with `min_periods=1` each position gets a
  real (non-NaN) value.
* The pandas `median` of a list sorts it ascending and takes the middle
  element (odd length) or the mean of the two middle elements (even
  length); an empty list has median NaN in pandas — the total function
  below returns the junk value 0 there, and every use in the development
  is on a nonempty list whenever `W ≥ 1`.
-/

/-- pandas/numpy median of a list of values: sort ascending, take the
middle element (odd length) or the average of the two middle elements
(even length).  Empty list: junk value 0 (pandas would give NaN; no use
site reaches this case for `W ≥ 1`). -/
def median (l : List ℚ) : ℚ :=
  let s := l.insertionSort (· ≤ ·)
  if s.length = 0 then 0
  else if s.length % 2 = 1 then s.getD (s.length / 2) 0
  else (s.getD (s.length / 2 - 1) 0 + s.getD (s.length / 2) 0) / 2

/-- The window of values that pandas
`x.rolling(window=W, center=center, min_periods=1)` presents at
position `i`: indices `[start, end)` of `xs` with
`end = clip (i+1+offset) n`, `start = clip (i+1+offset-W) n`,
`offset = (W-1)/2` if centered else `0` (pandas `FixedWindowIndexer`). -/
def windowSlice (xs : List ℚ) (W : ℕ) (center : Bool) (i : ℕ) : List ℚ :=
  let offset := if center then (W - 1) / 2 else 0
  let e := min (i + 1 + offset) xs.length
  let s := min (i + 1 + offset - W) xs.length
  (xs.drop s).take (e - s)

/-- `x.rolling(window=W, center=center, min_periods=1).median()` from
`mscore`: the per-position median of the rolling window. -/
def rollingMedian (xs : List ℚ) (W : ℕ) (center : Bool) : List ℚ :=
  (List.range xs.length).map (fun i => median (windowSlice xs W center i))

/-- `mad = (x - median).abs().median()` from `mscore`: the median
absolute deviation of the residuals against the rolling median, taken
over the whole sequence. -/
def mscoreMad (xs : List ℚ) (W : ℕ) (center : Bool) : ℚ :=
  median ((List.range xs.length).map
    (fun i => |xs.getD i 0 - (rollingMedian xs W center).getD i 0|))

/-- `mscore(x, groupby=None, window, center, cutoff, norm)` from
`rmmtools/util/filters.py` on a plain Series (no grouping).  Source:
```
median = x.rolling(window=window, center=center, min_periods=1).median()
mad = (x - median).abs().median()
if mad > 0.0:
    series = (x - median) * norm / mad
    if cutoff:
        series.loc[median < cutoff] = np.nan
else:
    series = pd.Series(data=np.nan, index=x.index)
```
The Series pipeline is elementwise over positions, so it is embedded as
one map over positions; `if cutoff:` is Python truthiness, i.e.
`cutoff ≠ 0`; the NaN cells are `none`. -/
def mscore (xs : List ℚ) (W : ℕ) (center : Bool) (cutoff norm : ℚ) :
    List (Option ℚ) :=
  let med := rollingMedian xs W center
  let mad := mscoreMad xs W center
  if 0 < mad then
    (List.range xs.length).map (fun i =>
      if cutoff ≠ 0 ∧ med.getD i 0 < cutoff then none
      else some ((xs.getD i 0 - med.getD i 0) * norm / mad))
  else
    List.replicate xs.length none

/-- The per-column medians of the absolute pairwise-difference matrix of
a window `d`:
`pd.DataFrame(np.array(d)[:, None] - np.array(d)).abs().median()`.
Column `j` holds `|d[i] - d[j]|` for all rows `i`, and
`DataFrame.median()` reduces each column. -/
def colMedians (d : List ℚ) : List ℚ :=
  d.map (fun y => median (d.map (fun v => |v - y|)))

/-- `sn_func(d)` from `sn_score`: the Sn scale estimator of window `d`,
`pd.DataFrame(np.array(d)[:, None] - np.array(d)).abs().median().median()`
— the median of the per-column medians of absolute pairwise
differences. -/
def sn_func (d : List ℚ) : ℚ := median (colMedians d)

/-- `numerator_func(d)` from `sn_score`:
`pd.DataFrame(np.array(d)[:, None] - np.array(d)).abs().median().iloc[-1]`
— the per-column median for the last column, i.e. the median of
`|d[i] - d.last|` over the window. -/
def numerator_func (d : List ℚ) : ℚ := (colMedians d).getLastD 0

/-- Float division as it feeds `sn_score`: `b = 0` gives NaN or ±inf in
floats — all of which the source turns into NaN and then 0 — embedded
as `none`; otherwise the exact quotient. -/
def fdiv (a b : ℚ) : Option ℚ := if b = 0 then none else some (a / b)

/-- The rolling Sn scale `sn = data.apply(sn_func, raw=True)` of
`sn_score` at position `i`. -/
def snAt (xs : List ℚ) (W : ℕ) (center : Bool) (i : ℕ) : ℚ :=
  sn_func (windowSlice xs W center i)

/-- The rolling numerator `numerator = data.apply(numerator_func,
raw=True)` of `sn_score` at position `i`. -/
def numeratorAt (xs : List ℚ) (W : ℕ) (center : Bool) (i : ℕ) : ℚ :=
  numerator_func (windowSlice xs W center i)

/-- `sn_score(x, groupby=None, window, center, cutoff, norm)` from
`rmmtools/util/filters.py` on a plain Series (no grouping).  Source:
```
data = x.rolling(window=window, center=center, min_periods=1)
numerator = data.apply(numerator_func, raw=True)
sn = data.apply(sn_func, raw=True)
rous = (numerator - sn) / sn
if cutoff:
    rous.loc[sn < cutoff] = np.nan
rous.replace(np.inf, np.nan, inplace=True)
rous.replace(-np.inf, np.nan, inplace=True)
rous.fillna(0, inplace=True)
series = rous * norm
```
All steps are elementwise over positions, so the pipeline is one map
over positions: `fdiv` is `none` exactly where the float quotient is
NaN/±inf (denominator `sn = 0`), the cutoff masking writes `none`, and
`replace`+`fillna(0)` send every `none` to `0` before the final scaling
by `norm`. -/
def sn_score (xs : List ℚ) (W : ℕ) (center : Bool) (cutoff norm : ℚ) :
    List (Option ℚ) :=
  (List.range xs.length).map (fun i =>
    let sn := snAt xs W center i
    let rous0 := fdiv (numeratorAt xs W center i - sn) sn
    let rous1 := if cutoff ≠ 0 ∧ sn < cutoff then none else rous0
    some (rous1.getD 0 * norm))

/-- The distinct grouping keys of a keyed Series, each taken once (the
groups formed by `x.groupby(groupby)`).  The Series with its aligned
grouping key is embedded as a list of (key, value) pairs. -/
def groupKeys {K : Type} [DecidableEq K] (xs : List (K × ℚ)) : List K :=
  (xs.map Prod.fst).dedup

/-- The subsequence of values belonging to group `k`, in original
order — the Series `g` that `groupby(...).apply` hands to the lambda
for group `k`. -/
def groupVals {K : Type} [DecidableEq K] (xs : List (K × ℚ)) (k : K) :
    List ℚ :=
  (xs.filter (fun p => decide (p.1 = k))).map Prod.snd

/-- The grouped branch of `mscore`:
`x.groupby(groupby).apply(lambda g: mscore(g, window=window,
center=center, cutoff=cutoff, norm=norm))` — each group's subsequence
is scored alone with the same parameters and the per-group results are
concatenated, each tagged with its group key. -/
def mscoreBy {K : Type} [DecidableEq K] (xs : List (K × ℚ)) (W : ℕ)
    (center : Bool) (cutoff norm : ℚ) : List (K × Option ℚ) :=
  (groupKeys xs).flatMap
    (fun k => (mscore (groupVals xs k) W center cutoff norm).map
      (fun v => (k, v)))

/-- The grouped branch of `sn_score`:
`x.groupby(groupby).apply(lambda g: sn_score(g, window=window,
center=center, cutoff=cutoff, norm=norm))`. -/
def snScoreBy {K : Type} [DecidableEq K] (xs : List (K × ℚ)) (W : ℕ)
    (center : Bool) (cutoff norm : ℚ) : List (K × Option ℚ) :=
  (groupKeys xs).flatMap
    (fun k => (sn_score (groupVals xs k) W center cutoff norm).map
      (fun v => (k, v)))

/-- A Python value passed as `x`: either a `pd.Series` of floats, or any
other object (the payload is an arbitrary tag standing for the many
non-Series values). -/
inductive PyInput where
  | series : List ℚ → PyInput
  | nonSeries : ℕ → PyInput

/-- The entry of `mscore` with `groupby=None`:
`assert isinstance(x, pd.Series)` raises `AssertionError` on any
non-Series input before any scoring happens; a Series is scored. -/
def mscoreChecked (x : PyInput) (W : ℕ) (center : Bool)
    (cutoff norm : ℚ) : Except String (List (Option ℚ)) :=
  match x with
  | .series xs => .ok (mscore xs W center cutoff norm)
  | .nonSeries _ => .error "AssertionError"

/-- The entry of `sn_score` with `groupby=None`:
`assert isinstance(x, pd.Series)` raises `AssertionError` on any
non-Series input before any scoring happens; a Series is scored. -/
def snScoreChecked (x : PyInput) (W : ℕ) (center : Bool)
    (cutoff norm : ℚ) : Except String (List (Option ℚ)) :=
  match x with
  | .series xs => .ok (sn_score xs W center cutoff norm)
  | .nonSeries _ => .error "AssertionError"

/-! ### Basic lemmas about the embedded primitives -/

theorem median_nil : median [] = 0 := rfl

theorem getD_of_forall_eq {l : List ℚ} {c : ℚ} (h : ∀ a ∈ l, a = c)
    {i : ℕ} (hi : i < l.length) : l.getD i 0 = c := by
  rw [List.getD_eq_getElem?_getD, List.getElem?_eq_getElem hi]
  exact h _ (List.getElem_mem hi)

theorem median_const {l : List ℚ} {c : ℚ} (hne : l ≠ [])
    (h : ∀ a ∈ l, a = c) : median l = c := by
  have hs : ∀ a ∈ l.insertionSort (· ≤ ·), a = c := fun a ha =>
    h a ((List.perm_insertionSort (· ≤ ·) l).mem_iff.mp ha)
  have hpos : 0 < (l.insertionSort (· ≤ ·)).length := by
    rw [List.length_insertionSort]
    exact List.length_pos.mpr hne
  unfold median
  rw [if_neg (by omega)]
  by_cases hodd : (l.insertionSort (· ≤ ·)).length % 2 = 1
  · rw [if_pos hodd]
    exact getD_of_forall_eq hs (Nat.div_lt_self hpos one_lt_two)
  · rw [if_neg hodd]
    have hdiv : (l.insertionSort (· ≤ ·)).length / 2 <
        (l.insertionSort (· ≤ ·)).length := Nat.div_lt_self hpos one_lt_two
    rw [getD_of_forall_eq hs (by omega), getD_of_forall_eq hs hdiv]
    ring

theorem windowSlice_length_pos {xs : List ℚ} {W i : ℕ} (center : Bool)
    (hW : 1 ≤ W) (hi : i < xs.length) :
    0 < (windowSlice xs W center i).length := by
  have hoff : (if center then (W - 1) / 2 else 0) < W := by
    cases center <;> simp <;> omega
  unfold windowSlice
  simp only [List.length_take, List.length_drop]
  omega

theorem mem_windowSlice {xs : List ℚ} {W i : ℕ} {center : Bool} {a : ℚ}
    (ha : a ∈ windowSlice xs W center i) : a ∈ xs := by
  unfold windowSlice at ha
  exact List.drop_subset _ _ (List.take_subset _ _ ha)

theorem range_map_getElem? {α : Type} (f : ℕ → α) {n i : ℕ} (hi : i < n) :
    ((List.range n).map f)[i]? = some (f i) := by
  simp [List.getElem?_map, List.getElem?_range, hi]

theorem rollingMedian_getD {xs : List ℚ} {W : ℕ} {center : Bool} {i : ℕ}
    (hi : i < xs.length) :
    (rollingMedian xs W center).getD i 0 = median (windowSlice xs W center i) := by
  rw [rollingMedian, List.getD_eq_getElem?_getD, range_map_getElem? _ hi]
  rfl

theorem mscore_length (xs : List ℚ) (W : ℕ) (center : Bool)
    (cutoff norm : ℚ) : (mscore xs W center cutoff norm).length = xs.length := by
  unfold mscore
  by_cases h : 0 < mscoreMad xs W center <;> simp [h]

theorem sn_score_length (xs : List ℚ) (W : ℕ) (center : Bool)
    (cutoff norm : ℚ) : (sn_score xs W center cutoff norm).length = xs.length := by
  unfold sn_score
  simp

theorem mscore_nil (W : ℕ) (center : Bool) (cutoff norm : ℚ) :
    mscore [] W center cutoff norm = [] := by
  have h : mscoreMad [] W center = 0 := by
    simp [mscoreMad, median, List.insertionSort]
  unfold mscore
  rw [h]
  simp

theorem sn_score_nil (W : ℕ) (center : Bool) (cutoff norm : ℚ) :
    sn_score [] W center cutoff norm = [] := by
  unfold sn_score
  simp

theorem sn_func_of_short {d : List ℚ} (h : d.length < 2) : sn_func d = 0 := by
  match d, h with
  | [], _ => rfl
  | [a], _ =>
    simp [sn_func, colMedians, sub_self, abs_zero, median,
      List.insertionSort, List.orderedInsert]

/-- Helper: `mscore` of an all-constant sequence is all-NaN, because the
rolling median is the constant and hence the MAD is zero. -/
theorem mscore_of_const (xs : List ℚ) (c : ℚ) (W : ℕ) (center : Bool)
    (cutoff norm : ℚ) (hW : 1 ≤ W) (hc : ∀ a ∈ xs, a = c) :
    mscore xs W center cutoff norm = List.replicate xs.length none := by
  have hmed : ∀ i, i < xs.length → (rollingMedian xs W center).getD i 0 = c := by
    intro i hi
    rw [rollingMedian_getD hi]
    exact median_const
      (List.ne_nil_of_length_pos (windowSlice_length_pos center hW hi))
      (fun a ha => hc a (mem_windowSlice ha))
  have hmad : mscoreMad xs W center = 0 := by
    unfold mscoreMad
    rcases Nat.eq_zero_or_pos xs.length with h0 | hpos
    · rw [h0]
      simp [median, List.insertionSort]
    · apply median_const
      · have : ((List.range xs.length).map
            (fun i => |xs.getD i 0 - (rollingMedian xs W center).getD i 0|)).length
            = xs.length := by simp
        exact List.ne_nil_of_length_pos (by rw [this]; exact hpos)
      · intro a ha
        rcases List.mem_map.mp ha with ⟨i, hmem, rfl⟩
        have hi : i < xs.length := List.mem_range.mp hmem
        rw [getD_of_forall_eq hc hi, hmed i hi]
        simp
  unfold mscore
  rw [hmad]
  simp

/-! ### Concrete evaluations used by end-to-end results -/

set_option maxHeartbeats 2000000 in
/-- The centered window-5 rolling median of `[1,2,3,4,100]`. -/
theorem rollingMedian_outlier_eg :
    rollingMedian [1, 2, 3, 4, 100] 5 true = [2, 5/2, 3, 7/2, 4] := by
  have h5 : List.range 5 = [0, 1, 2, 3, 4] := by decide
  norm_num [rollingMedian, windowSlice, median, h5,
    List.insertionSort, List.orderedInsert]

set_option maxHeartbeats 2000000 in
/-- The MAD of `[1,2,3,4,100]` against its window-5 centered rolling
median. -/
theorem mscoreMad_outlier_eg : mscoreMad [1, 2, 3, 4, 100] 5 true = 1/2 := by
  have h5 : List.range 5 = [0, 1, 2, 3, 4] := by decide
  norm_num [mscoreMad, rollingMedian_outlier_eg, h5, median,
    List.insertionSort, List.orderedInsert, abs_eq_max_neg, max_def]

set_option maxHeartbeats 2000000 in
/-- The rolling Sn scale of `[0, 10]` at position 1 (window `[0,10]`). -/
theorem snAt_pair_eg : snAt [0, 10] 7 false 1 = 5 := by
  norm_num [snAt, sn_func, colMedians, windowSlice, median,
    List.insertionSort, List.orderedInsert, abs_eq_max_neg, max_def]

set_option maxHeartbeats 2000000 in
/-- The rolling Sn scale of `[0, 10]` at position 0 (window `[0]`). -/
theorem snAt_pair0_eg : snAt [0, 10] 7 false 0 = 0 := by
  norm_num [snAt, sn_func, colMedians, windowSlice, median,
    List.insertionSort, List.orderedInsert, abs_eq_max_neg, max_def]

/-! ### Group dispatch -/

/-- Tag-and-concatenate over nodup keys, filtered back to one key,
recovers that key's block. -/
theorem flatMap_tag_filter {K V : Type} [DecidableEq K] (F : K → List V) :
    ∀ l : List K, l.Nodup → ∀ k : K,
      ((l.flatMap (fun k2 => (F k2).map (fun v => (k2, v)))).filter
        (fun p => decide (p.1 = k))).map Prod.snd
      = if k ∈ l then F k else [] := by
  intro l
  induction l with
  | nil => intro _ k; simp
  | cons a t ih =>
    intro hnd k
    rcases List.nodup_cons.mp hnd with ⟨ha, ht⟩
    rw [List.flatMap_cons, List.filter_append, List.map_append, ih ht k]
    by_cases hk : a = k
    · subst hk
      have h1 : ((F a).map (fun v => (a, v))).filter
          (fun p => decide (p.1 = a)) = (F a).map (fun v => (a, v)) := by
        apply List.filter_eq_self.mpr
        intro p hp
        rcases List.mem_map.mp hp with ⟨v, _, rfl⟩
        simp
      rw [h1, if_neg ha, if_pos (List.mem_cons_self a t)]
      simp [List.map_map, Function.comp]
    · have h1 : ((F a).map (fun v => (a, v))).filter
          (fun p => decide (p.1 = k)) = [] := by
        apply List.filter_eq_nil_iff.mpr
        intro p hp
        rcases List.mem_map.mp hp with ⟨v, _, rfl⟩
        simp [hk]
      rw [h1]
      simp only [List.map_nil, List.nil_append]
      by_cases hkt : k ∈ t
      · rw [if_pos hkt, if_pos (List.mem_cons_of_mem a hkt)]
      · rw [if_neg hkt, if_neg (fun hmem => by
          rcases List.mem_cons.mp hmem with h | h
          · exact hk h.symm
          · exact hkt h)]

/-- A key absent from the sequence has an empty group. -/
theorem groupVals_of_not_mem {K : Type} [DecidableEq K]
    {xs : List (K × ℚ)} {k : K} (hk : k ∉ groupKeys xs) :
    groupVals xs k = [] := by
  unfold groupVals
  have h : xs.filter (fun p => decide (p.1 = k)) = [] := by
    apply List.filter_eq_nil_iff.mpr
    intro p hp hpk
    apply hk
    rw [groupKeys, List.mem_dedup]
    have : p.1 = k := of_decide_eq_true hpk
    exact this ▸ List.mem_map_of_mem Prod.fst hp
  rw [h]
  rfl

/-! ### Claim theorems -/

/-- C1: for a Series `x` with no grouping and no cutoff, when the MAD of
the residuals against the rolling median (window `W`, centered or
trailing, min 1 observation) is positive, `mscore` returns a sequence of
the same length as `x` whose entry at each position `i` is
`(x[i] - rolling_median[i]) * norm / MAD`. -/
theorem mscore_formula_of_mad_pos (xs : List ℚ) (W : ℕ) (center : Bool)
    (norm : ℚ) (hW : 1 ≤ W) (hmad : 0 < mscoreMad xs W center) :
    (mscore xs W center 0 norm).length = xs.length ∧
    ∀ i, i < xs.length →
      (mscore xs W center 0 norm)[i]? =
        some (some ((xs.getD i 0 - (rollingMedian xs W center).getD i 0)
          * norm / mscoreMad xs W center)) := by
  refine ⟨mscore_length xs W center 0 norm, fun i hi => ?_⟩
  unfold mscore
  rw [if_pos hmad, range_map_getElem? _ hi]
  simp

/-- C2: for a Series `x` with no grouping and no cutoff, `sn_score`
returns a same-length sequence whose entry at each position is
`norm * (numerator - scale) / scale` over the trailing window ending
there, where `scale` is the rolling Sn estimator and `numerator` the
median absolute difference to the last window element; positions where
that quotient is infinite or undefined (scale zero) are zero instead. -/
theorem sn_score_pointwise_formula (xs : List ℚ) (W : ℕ) (norm : ℚ)
    (hW : 1 ≤ W) :
    (sn_score xs W false 0 norm).length = xs.length ∧
    ∀ i, i < xs.length →
      (sn_score xs W false 0 norm)[i]? =
        some (some (if snAt xs W false i = 0 then 0
          else norm * ((numeratorAt xs W false i - snAt xs W false i)
            / snAt xs W false i))) := by
  refine ⟨sn_score_length xs W false 0 norm, fun i hi => ?_⟩
  unfold sn_score
  rw [range_map_getElem? _ hi]
  by_cases h : snAt xs W false i = 0
  · simp [h, fdiv]
  · simp only [ne_eq, not_true_eq_false, false_and, if_false, fdiv,
      if_neg h, Option.getD_some, h, if_false]
    rw [mul_comm]

/-- C3: on a constant sequence (all values equal to `c`), `mscore`
returns all-undefined (NaN) scores, because the MAD is zero. -/
theorem mscore_const_all_nan (xs : List ℚ) (c : ℚ) (W : ℕ) (center : Bool)
    (cutoff norm : ℚ) (hW : 1 ≤ W) (hc : ∀ a ∈ xs, a = c) :
    mscore xs W center cutoff norm = List.replicate xs.length none :=
  mscore_of_const xs c W center cutoff norm hW hc

set_option maxHeartbeats 2000000 in
/-- C4, counterexample: the claim "where the rolling Sn scale is below a
nonzero cutoff the returned score is NaN" is false on the code — on
`[0, 10]` with cutoff 100 the scale at position 1 is `5 < 100`, yet the
returned score there is the number `0`, not NaN, because
`fillna(0)` runs after the cutoff masking and overwrites the NaN. -/
theorem sn_score_cutoff_nan_cex :
    (100 : ℚ) ≠ 0 ∧ snAt [0, 10] 7 false 1 < 100 ∧
    (sn_score [0, 10] 7 false 100 (11926/10000))[1]? ≠ some none ∧
    (sn_score [0, 10] 7 false 100 (11926/10000))[1]? = some (some 0) := by
  have hval : (sn_score [0, 10] 7 false 100 (11926/10000))[1]? = some (some 0) := by
    norm_num [sn_score, snAt_pair_eg, snAt_pair0_eg, fdiv]
  refine ⟨by norm_num, by rw [snAt_pair_eg]; norm_num, ?_, hval⟩
  rw [hval]
  simp

/-- C4, amended: at positions where the rolling Sn scale lies below a
nonzero cutoff, the score is first marked undefined but the final
`fillna(0)` replaces the marker, so the returned score there is zero. -/
theorem sn_score_cutoff_yields_zero (xs : List ℚ) (W : ℕ) (center : Bool)
    (cutoff norm : ℚ) (i : ℕ) (hi : i < xs.length) (hc : cutoff ≠ 0)
    (hlt : snAt xs W center i < cutoff) :
    (sn_score xs W center cutoff norm)[i]? = some (some 0) := by
  unfold sn_score
  rw [range_map_getElem? _ hi]
  simp [hc, hlt]

/-- C5: for an input with at least one pair of distinct values, no value
returned by `sn_score` is NaN/±inf (every cell is a real number; the
`replace`/`fillna` steps guarantee this). -/
theorem sn_score_never_nan (xs : List ℚ) (W : ℕ) (center : Bool)
    (cutoff norm : ℚ) (h : ∃ a ∈ xs, ∃ b ∈ xs, a ≠ b) :
    ∀ v ∈ sn_score xs W center cutoff norm, v ≠ none := by
  intro v hv
  unfold sn_score at hv
  rcases List.mem_map.mp hv with ⟨i, _, rfl⟩
  simp

/-- C6: `sn_score` is total, and at positions whose rolling window holds
fewer than 2 points or whose Sn scale is zero the returned score is
exactly zero (no exception, no infinity). -/
theorem sn_score_degenerate_zero (xs : List ℚ) (W : ℕ) (center : Bool)
    (cutoff norm : ℚ) (i : ℕ) (hi : i < xs.length)
    (h : (windowSlice xs W center i).length < 2 ∨ snAt xs W center i = 0) :
    (sn_score xs W center cutoff norm)[i]? = some (some 0) := by
  have hsn : snAt xs W center i = 0 := by
    rcases h with h | h
    · exact sn_func_of_short h
    · exact h
  unfold sn_score
  rw [range_map_getElem? _ hi]
  simp [hsn, fdiv]

set_option maxHeartbeats 2000000 in
/-- C7: end-to-end — `mscore` on `[1,2,3,4,100]` with window 5, default
centering, no cutoff and the default norm `0.6745` scores the last point
`129.504`, far above the usual 3.5 outlier threshold, while the constant
input `[5,5,5,5,5]` yields all-undefined scores. -/
theorem mscore_end_to_end :
    (mscore [1, 2, 3, 4, 100] 5 true 0 (6745/10000))[4]? =
      some (some (16188/125)) ∧
    (7/2 : ℚ) < 16188/125 ∧
    mscore [5, 5, 5, 5, 5] 5 true 0 (6745/10000) =
      List.replicate 5 (none : Option ℚ) := by
  have h5 : List.range 5 = [0, 1, 2, 3, 4] := by decide
  refine ⟨?_, by norm_num, ?_⟩
  · norm_num [mscore, rollingMedian_outlier_eg, mscoreMad_outlier_eg, h5]
  · have h := mscore_of_const [5, 5, 5, 5, 5] 5 5 true 0 (6745/10000)
      (by norm_num) (fun a ha => by
        rcases List.mem_cons.mp ha with h | h
        · exact h
        · rcases List.mem_cons.mp h with h | h
          · exact h
          · rcases List.mem_cons.mp h with h | h
            · exact h
            · rcases List.mem_cons.mp h with h | h
              · exact h
              · exact List.mem_singleton.mp h)
    simpa using h

/-- C8: with `groupby=None`, a non-Series input makes both `mscore` and
`sn_score` fail immediately at `assert isinstance(x, pd.Series)` — an
`AssertionError` is raised and no score sequence is produced. -/
theorem non_series_input_asserts (r : ℕ) (W : ℕ) (center : Bool)
    (cutoff norm : ℚ) :
    mscoreChecked (PyInput.nonSeries r) W center cutoff norm =
      Except.error "AssertionError" ∧
    snScoreChecked (PyInput.nonSeries r) W center cutoff norm =
      Except.error "AssertionError" :=
  ⟨rfl, rfl⟩

/-- C9: grouped scoring is groupwise scoring — for every grouping key
`k`, the scores that the grouped dispatch of `mscore` (resp. `sn_score`)
produces for group `k` are exactly those of scoring the subsequence of
group `k` alone with the same window, center, cutoff and norm; values in
other groups never influence them. -/
theorem grouped_scoring_matches_groupwise {K : Type} [DecidableEq K]
    (xs : List (K × ℚ)) (k : K) (W : ℕ) (center : Bool)
    (cutoff norm : ℚ) :
    ((mscoreBy xs W center cutoff norm).filter
        (fun p => decide (p.1 = k))).map Prod.snd
      = mscore (groupVals xs k) W center cutoff norm ∧
    ((snScoreBy xs W center cutoff norm).filter
        (fun p => decide (p.1 = k))).map Prod.snd
      = sn_score (groupVals xs k) W center cutoff norm := by
  have hnd : (groupKeys xs).Nodup := List.nodup_dedup (xs.map Prod.fst)
  constructor
  · rw [mscoreBy, flatMap_tag_filter _ _ hnd k]
    by_cases hk : k ∈ groupKeys xs
    · rw [if_pos hk]
    · rw [if_neg hk, groupVals_of_not_mem hk, mscore_nil]
  · rw [snScoreBy, flatMap_tag_filter _ _ hnd k]
    by_cases hk : k ∈ groupKeys xs
    · rw [if_pos hk]
    · rw [if_neg hk, groupVals_of_not_mem hk, sn_score_nil]

/-! ### Witnesses -/

/-- Witness for C1 at `[1,2,3,4,100]`, window 5, centered, norm
`0.6745`: the MAD is positive and the score at position 4 follows the
formula. -/
theorem mscore_formula_of_mad_pos_witness :
    (mscore [1, 2, 3, 4, 100] 5 true 0 (6745/10000))[4]? =
      some (some ((([1, 2, 3, 4, 100] : List ℚ).getD 4 0
        - (rollingMedian [1, 2, 3, 4, 100] 5 true).getD 4 0)
        * (6745/10000) / mscoreMad [1, 2, 3, 4, 100] 5 true)) :=
  (mscore_formula_of_mad_pos [1, 2, 3, 4, 100] 5 true (6745/10000)
    (by norm_num) (by rw [mscoreMad_outlier_eg]; norm_num)).2 4 (by simp)

/-- Witness for C2 at `[0, 10]`, window 7, norm `1.1926`, position 1. -/
theorem sn_score_pointwise_formula_witness :
    (sn_score [0, 10] 7 false 0 (11926/10000))[1]? =
      some (some (if snAt [0, 10] 7 false 1 = 0 then 0
        else (11926/10000 : ℚ) * ((numeratorAt [0, 10] 7 false 1
          - snAt [0, 10] 7 false 1) / snAt [0, 10] 7 false 1))) :=
  (sn_score_pointwise_formula [0, 10] 7 (11926/10000) (by norm_num)).2 1
    (by simp)

/-- Witness for C3 on the constant sequence `[5,5,5,5,5]` with the
default window 16. -/
theorem mscore_const_all_nan_witness :
    mscore [5, 5, 5, 5, 5] 16 true 0 (6745/10000) =
      List.replicate ([5, 5, 5, 5, 5] : List ℚ).length none :=
  mscore_const_all_nan [5, 5, 5, 5, 5] 5 16 true 0 (6745/10000)
    (by norm_num) (fun a ha => by simpa using ha)

/-- Witness for C4 (amended) at `[0, 10]` with cutoff 100: the Sn scale
at position 1 is 5, below the cutoff, and the returned score is zero. -/
theorem sn_score_cutoff_yields_zero_witness :
    (sn_score [0, 10] 7 false 100 (11926/10000))[1]? = some (some 0) :=
  sn_score_cutoff_yields_zero [0, 10] 7 false 100 (11926/10000) 1
    (by simp) (by norm_num) (by rw [snAt_pair_eg]; norm_num)

set_option maxHeartbeats 2000000 in
/-- Witness for C5 at `[0, 10]` (which has a distinct pair), applied to
the value the score list holds at position 0: it is not NaN. -/
theorem sn_score_never_nan_witness :
    (some (0 : ℚ) : Option ℚ) ≠ none :=
  sn_score_never_nan [0, 10] 7 false 0 (11926/10000)
    ⟨0, by simp, 10, by simp, by norm_num⟩ (some 0) (by
      have h2 : List.range 2 = [0, 1] := by decide
      have h : sn_score [0, 10] 7 false 0 (11926/10000) = [some 0, some 0] := by
        norm_num [sn_score, h2, snAt_pair_eg, snAt_pair0_eg, fdiv, numeratorAt,
          numerator_func, colMedians, windowSlice, median,
          List.insertionSort, List.orderedInsert, abs_eq_max_neg, max_def]
      rw [h]
      simp)

/-- Witness for C6 on the one-point sequence `[3]`: the window at
position 0 has a single point and the returned score is zero. -/
theorem sn_score_degenerate_zero_witness :
    (sn_score [3] 7 false 0 (11926/10000))[0]? = some (some 0) :=
  sn_score_degenerate_zero [3] 7 false 0 (11926/10000) 0 (by simp)
    (Or.inl (by simp [windowSlice]))
